import Mathlib

/-!
Verification development for the DayRatingApp monthly analysis engine
(`src/utils/aiAnalysis.ts` and the storage layer `src/utils/storage.ts`).

Modelling conventions (shallow embedding):

* JavaScript numbers are modelled as exact rationals (`ℚ`); ratings are
  stored as `ℚ` so that out-of-range values can be expressed.
* A `Record<string, DayEntry>` is modelled as an association list
  `List (ℤ × DayEntry)`; the key is the calendar day number encoded by the
  `YYYY-MM-DD` date string (for that fixed-width format, lexicographic
  order on strings coincides with numeric order on day numbers, and
  `new Date(dateStr)` parses the string to UTC midnight of that day, i.e.
  `day * 86400000` in epoch milliseconds).  Records have distinct keys;
  theorems that depend on this carry a `Nodup` hypothesis.
* The device clock is a pair `now : ℤ` (epoch milliseconds) and `tz : ℤ`
  (fixed offset of local time from UTC in milliseconds, local = UTC + tz).
  With a fixed offset (no DST transition inside the window),
  `d.setDate(d.getDate() - days)` on the current date subtracts exactly
  `days * 86400000` milliseconds.
* The async key/value store read is modelled as `Except Unit Entries`:
  either the read resolves with the full entry list or it rejects.
-/

/-- The persisted entry for one day: a rating (a JS number, nominally 1-5)
and a free-text description (`DayEntry` in `src/utils/storage.ts`). -/
structure DayEntry where
  rating : ℚ
  description : String
deriving DecidableEq

/-- An entry record: association list from day number to entry. -/
abbrev Entries := List (ℤ × DayEntry)

/-- The three trend labels returned by `analyzeRatingTrend`. -/
inductive Trend where
  | improving
  | declining
  | stable
deriving DecidableEq

/-- The five-bucket rating distribution of `MonthlyAnalysis`. -/
structure RatingDistribution where
  excellent : ℕ
  good : ℕ
  neutral : ℕ
  bad : ℕ
  terrible : ℕ
deriving DecidableEq

/-- The report object produced by `analyzeLastMonth`. -/
structure MonthlyAnalysis where
  period : String
  totalDays : ℕ
  ratedDays : ℕ
  averageRating : ℚ
  ratingDistribution : RatingDistribution
  emotionalTrend : Trend
  topThemes : List String
  insights : List String
  recommendations : List String
deriving DecidableEq

/-- Milliseconds per day. -/
def msPerDay : ℤ := 86400000

/-- The epoch-millisecond timestamp that `new Date(dateStr)` yields for a
date-only string: UTC midnight of that calendar day. -/
def parseDate (d : ℤ) : ℤ := d * msPerDay

/-- The cutoff timestamp computed by `cutoffDate.setDate(cutoffDate.getDate() - days)`
applied to `new Date()`: the current instant moved back `days` calendar days
(with a fixed UTC offset this is exactly `days * 86400000` milliseconds). -/
def windowCutoff (now days : ℤ) : ℤ := now - days * msPerDay

/-- The local calendar day number of the current instant ("today" on the
device): floor of local epoch time divided by the length of a day.  For a
positive divisor, Lean's integer `/` (Euclidean division) is floor division. -/
def localToday (now tz : ℤ) : ℤ := (now + tz) / msPerDay

/-- The storage read `getAllDayEntries` (`src/utils/storage.ts`): the
`try` block returns the parsed entries; the `catch` block swallows the
error and returns the empty record `{}`. -/
def getAllDayEntries (store : Except Unit Entries) : Entries :=
  match store with
  | .ok entries => entries
  | .error _ => []

/-- The filtering step of `getEntriesFromLastNDays`: keep exactly the
entries whose parsed date is `>= cutoffDate` (`entryDate >= cutoffDate`
compares epoch timestamps). -/
def getEntriesFromLastNDaysPure (now days : ℤ) (allEntries : Entries) : Entries :=
  allEntries.filter (fun p => decide (windowCutoff now days ≤ parseDate p.1))

/-- Full `getEntriesFromLastNDays` (`src/utils/aiAnalysis.ts`): read the
store, then filter by the cutoff. -/
def getEntriesFromLastNDays (store : Except Unit Entries) (now days : ℤ) : Entries :=
  getEntriesFromLastNDaysPure now days (getAllDayEntries store)

/-- C1 counterexample input: one millisecond past UTC midnight, 31 days
after the epoch, in timezone UTC (tz = 0). -/
def c1Now : ℤ := 31 * msPerDay + 1

/-- C1 (counterexample): at `c1Now` with tz = 0, "today" is day 31, so day 1
is exactly 30 calendar days before today, yet the entry dated day 1 is
excluded from the 30-day window (its UTC-midnight timestamp is one
millisecond before the cutoff).  This refutes the claim that an entry dated
exactly 30 days before today is always included. -/
theorem getEntriesFromLastNDays_boundary_day_excluded :
    localToday c1Now 0 - 30 = 1 ∧
    getEntriesFromLastNDaysPure c1Now 30 [(1, ⟨3, ""⟩)] = [] := by
  constructor
  · decide
  · decide

/-- C1 (amended): membership in the window is exactly `parseDate d ≥ cutoff`
(an elapsed-time comparison of the entry's UTC-midnight timestamp against
the current instant minus `days` days); consequently every entry dated more
than 30 calendar days before local today is excluded (for any timezone
offset `tz < 24h`), but whether the boundary day itself is included depends
on the time of day and the offset. -/
theorem getEntriesFromLastNDays_window_spec (now tz days : ℤ) (allEntries : Entries)
    (d : ℤ) (e : DayEntry) (htz : tz < msPerDay) :
    ((d, e) ∈ getEntriesFromLastNDaysPure now days allEntries ↔
      (d, e) ∈ allEntries ∧ windowCutoff now days ≤ parseDate d) ∧
    (d < localToday now tz - 30 → (d, e) ∉ getEntriesFromLastNDaysPure now 30 allEntries) := by
  constructor
  · simp [getEntriesFromLastNDaysPure, List.mem_filter]
  · intro hd hmem
    have hcut : windowCutoff now 30 ≤ parseDate d := by
      have := (List.mem_filter.mp hmem).2
      simpa using this
    have htoday : localToday now tz * msPerDay ≤ now + tz := by
      have hadd := Int.ediv_add_emod (now + tz) msPerDay
      have hmod : 0 ≤ (now + tz) % msPerDay := by
        apply Int.emod_nonneg
        decide
      unfold localToday
      rw [mul_comm]
      omega
    have hdle : d ≤ localToday now tz - 31 := by omega
    have hparse : parseDate d ≤ (localToday now tz - 31) * msPerDay := by
      unfold parseDate
      have : (0:ℤ) < msPerDay := by decide
      nlinarith
    have : windowCutoff now 30 ≤ (localToday now tz - 31) * msPerDay := le_trans hcut hparse
    unfold windowCutoff msPerDay at *
    nlinarith

/-- C1 witness: the amended window characterization applied at a concrete
input (tz = 0, an entry dated 40 days before today, which is excluded). -/
theorem getEntriesFromLastNDays_window_spec_witness :
    (0:ℤ) < msPerDay ∧
    (((-9:ℤ), (⟨3, ""⟩ : DayEntry)) ∈ getEntriesFromLastNDaysPure c1Now 30 [((-9:ℤ), ⟨3, ""⟩)] ↔
      ((-9:ℤ), (⟨3, ""⟩ : DayEntry)) ∈ [((-9:ℤ), (⟨3, ""⟩ : DayEntry))] ∧
        windowCutoff c1Now 30 ≤ parseDate (-9)) ∧
    ((-9:ℤ) < localToday c1Now 0 - 30 →
      ((-9:ℤ), (⟨3, ""⟩ : DayEntry)) ∉ getEntriesFromLastNDaysPure c1Now 30 [((-9:ℤ), ⟨3, ""⟩)]) := by
  refine ⟨by decide, ?_⟩
  exact getEntriesFromLastNDays_window_spec c1Now 0 30 [((-9:ℤ), ⟨3, ""⟩)] (-9) ⟨3, ""⟩ (by decide)

/-- The key list `Object.keys(entries).sort()`: for `YYYY-MM-DD` keys the
JS lexicographic sort coincides with sorting the day numbers ascending. -/
def sortedDates (entries : Entries) : List ℤ :=
  List.insertionSort (· ≤ ·) (entries.map Prod.fst)

/-- The lookup `entries[date]` on the record; total because the looked-up
keys always come from `Object.keys(entries)`. -/
def lookupEntry (entries : Entries) (d : ℤ) : DayEntry :=
  ((entries.find? (fun p => decide (p.1 = d))).map Prod.snd).getD ⟨0, ""⟩

/-- The mean rating of the entries at a given list of dates, as computed by
`reduce((sum, date) => sum + entries[date].rating, 0) / half.length`. -/
def halfMean (entries : Entries) (dates : List ℤ) : ℚ :=
  (dates.map (fun d => (lookupEntry entries d).rating)).sum / dates.length

/-- The trend classifier `analyzeRatingTrend` (`src/utils/aiAnalysis.ts`). -/
def analyzeRatingTrend (entries : Entries) : Trend :=
  let dates := sortedDates entries
  if dates.length < 7 then .stable
  else
    let midPoint := dates.length / 2
    let firstHalf := dates.take midPoint
    let secondHalf := dates.drop midPoint
    let firstAvg := halfMean entries firstHalf
    let secondAvg := halfMean entries secondHalf
    let difference := secondAvg - firstAvg
    if 3/10 < difference then .improving
    else if difference < -(3/10) then .declining
    else .stable

/-- C3: the trend classifier returns `stable` on fewer than 7 distinct
dated entries; otherwise it sorts the dates ascending, splits at
`floor(count / 2)` (the extra entry of an odd count going to the second
half), and classifies by whether the difference of half means exceeds the
fixed 0.3 threshold.  The `Nodup` hypothesis encodes that a JS record has
distinct keys, so the entry count is the number of distinct dated entries. -/
theorem analyzeRatingTrend_spec (entries : Entries)
    (hnd : (entries.map Prod.fst).Nodup) :
    (entries.length < 7 → analyzeRatingTrend entries = Trend.stable) ∧
    (7 ≤ entries.length →
      List.Sorted (· ≤ ·) (sortedDates entries) ∧
      (sortedDates entries).Perm (entries.map Prod.fst) ∧
      analyzeRatingTrend entries =
        (if 3/10 <
            halfMean entries ((sortedDates entries).drop ((sortedDates entries).length / 2)) -
              halfMean entries ((sortedDates entries).take ((sortedDates entries).length / 2)) then
          Trend.improving
         else if halfMean entries ((sortedDates entries).drop ((sortedDates entries).length / 2)) -
              halfMean entries ((sortedDates entries).take ((sortedDates entries).length / 2)) < -(3/10) then
          Trend.declining
         else Trend.stable)) := by
  have hlen : (sortedDates entries).length = entries.length := by
    have hperm := List.perm_insertionSort (α := ℤ) (· ≤ ·) (entries.map Prod.fst)
    have := hperm.length_eq
    simpa [sortedDates] using this
  constructor
  · intro hlt
    unfold analyzeRatingTrend
    rw [if_pos]
    omega
  · intro hge
    refine ⟨List.sorted_insertionSort _ _, List.perm_insertionSort _ _, ?_⟩
    unfold analyzeRatingTrend
    rw [if_neg]
    omega

/-- Concrete three-entry record used by the C3 witness. -/
def c3WitnessEntries : Entries := [(1, ⟨3, ""⟩), (2, ⟨5, ""⟩), (3, ⟨1, ""⟩)]

/-- C3 witness: the trend characterization applied to a concrete record of
three distinct dated entries. -/
theorem analyzeRatingTrend_spec_witness :
    (c3WitnessEntries.map Prod.fst).Nodup ∧
    ((c3WitnessEntries.length < 7 → analyzeRatingTrend c3WitnessEntries = Trend.stable) ∧
     (7 ≤ c3WitnessEntries.length →
       List.Sorted (· ≤ ·) (sortedDates c3WitnessEntries) ∧
       (sortedDates c3WitnessEntries).Perm (c3WitnessEntries.map Prod.fst) ∧
       analyzeRatingTrend c3WitnessEntries =
         (if 3/10 <
             halfMean c3WitnessEntries ((sortedDates c3WitnessEntries).drop ((sortedDates c3WitnessEntries).length / 2)) -
               halfMean c3WitnessEntries ((sortedDates c3WitnessEntries).take ((sortedDates c3WitnessEntries).length / 2)) then
           Trend.improving
          else if halfMean c3WitnessEntries ((sortedDates c3WitnessEntries).drop ((sortedDates c3WitnessEntries).length / 2)) -
               halfMean c3WitnessEntries ((sortedDates c3WitnessEntries).take ((sortedDates c3WitnessEntries).length / 2)) < -(3/10) then
           Trend.declining
          else Trend.stable))) := by
  refine ⟨by decide, ?_⟩
  exact analyzeRatingTrend_spec c3WitnessEntries (by decide)

/-- A JS regex word character `\w`, i.e. `[A-Za-z0-9_]`. -/
def isWordChar (c : Char) : Bool := c.isAlphanum || c == '_'

/-- Accumulator pass splitting a character list into its maximal runs of
word characters. -/
def wordsAux : List Char → List Char → List (List Char)
  | [], acc => if acc.isEmpty then [] else [acc.reverse]
  | c :: cs, acc =>
    if isWordChar c then wordsAux cs (c :: acc)
    else if acc.isEmpty then wordsAux cs [] else acc.reverse :: wordsAux cs []

/-- The maximal `\w+` runs of a character list, in order. -/
def wordsOf (cs : List Char) : List (List Char) := wordsAux cs []

/-- The match count of the global regex `\b stem \w* \b` over a text: each
maximal word-character run is consumed by at most one match, and it matches
exactly when the stem is a prefix of the run (the run start is the required
word boundary and `\w*` greedily extends the match to the end of the run). -/
def stemMatches (text : List Char) (stem : String) : ℕ :=
  ((wordsOf text).filter (fun w => stem.data.isPrefixOf w)).length

/-- The score of one theme: the sum over its keyword stems of the stem's
match count (`words.reduce((sum, word) => sum + matches.length, 0)`). -/
def themeScore (text : List Char) (stems : List String) : ℕ :=
  (stems.map (stemMatches text)).sum

/-- The fixed keyword table of `extractThemes`, in declaration order. -/
def themeTable : List (String × List String) :=
  [("work", ["work", "job", "project", "meeting", "deadline", "colleague"]),
   ("social", ["friend", "family", "party", "dinner", "hangout", "visit"]),
   ("health", ["exercise", "gym", "run", "workout", "health", "sleep"]),
   ("learning", ["learn", "study", "read", "course", "book", "skill"]),
   ("stress", ["stress", "anxiety", "worry", "pressure", "overwhelm"]),
   ("achievement", ["accomplish", "achieve", "success", "complete", "finish", "win"])]

/-- The concatenated lower-cased text blob
`Object.values(entries).map(e => e.description.toLowerCase()).join(' ')`. -/
def allEntryText (entries : Entries) : List Char :=
  List.intercalate [' '] (entries.map (fun p => p.2.description.data.map Char.toLower))

/-- One theme together with its declaration index and keyword score. -/
structure ScoredTheme where
  label : String
  idx : ℕ
  score : ℕ
deriving DecidableEq

/-- The `themeScores` record, as an ordered list annotated with each
theme's declaration index. -/
def scoredThemes (entries : Entries) : List ScoredTheme :=
  themeTable.enum.map (fun p => ⟨p.2.1, p.1, themeScore (allEntryText entries) p.2.2⟩)

/-- The order produced by the stable JS sort `.sort(([, a], [, b]) => b - a)`
on a list that is initially in declaration order: strictly greater score
first, and among equal scores the smaller declaration index first. -/
def themeOrder (a b : ScoredTheme) : Prop :=
  b.score < a.score ∨ (a.score = b.score ∧ a.idx ≤ b.idx)

instance : DecidableRel themeOrder := fun a b => by
  unfold themeOrder
  exact inferInstance

instance : IsTotal ScoredTheme themeOrder :=
  ⟨by
    intro a b
    unfold themeOrder
    omega⟩

instance : IsTrans ScoredTheme themeOrder :=
  ⟨by
    intro a b c hab hbc
    unfold themeOrder at *
    omega⟩

/-- The ranked theme list of `extractThemes`: stable sort by score
descending, keep the first three, drop zero scores.  (A stable sort by
score descending over the declaration-ordered list is exactly a sort by
`themeOrder`, since declaration indices are strictly increasing.) -/
def rankedThemes (entries : Entries) : List ScoredTheme :=
  ((List.insertionSort themeOrder (scoredThemes entries)).take 3).filter
    (fun t => decide (0 < t.score))

/-- The label capitalization `theme.charAt(0).toUpperCase() + theme.slice(1)`. -/
def capitalizeLabel (s : String) : String :=
  match s.data with
  | [] => ""
  | c :: cs => String.mk (c.toUpper :: cs)

/-- Full `extractThemes` (`src/utils/aiAnalysis.ts`). -/
def extractThemes (entries : Entries) : List String :=
  (rankedThemes entries).map (fun t => capitalizeLabel t.label)

/-- C5: `extractThemes` returns at most 3 labels, each the capitalized
label of a theme with strictly positive score, ordered by score descending
with ties broken by the declaration order of the theme table (captured by
`themeOrder` on the declaration indices); being a pure function, it is
deterministic, so two runs on identical input coincide. -/
theorem extractThemes_spec (entries : Entries) :
    extractThemes entries = (rankedThemes entries).map (fun t => capitalizeLabel t.label) ∧
    (extractThemes entries).length ≤ 3 ∧
    (rankedThemes entries).all (fun t => decide (0 < t.score)) = true ∧
    List.Sorted themeOrder (rankedThemes entries) ∧
    rankedThemes entries ⊆ scoredThemes entries ∧
    extractThemes entries = extractThemes entries := by
  refine ⟨rfl, ?_, ?_, ?_, ?_, rfl⟩
  · have h1 := List.length_filter_le (fun t => decide (0 < t.score))
      ((List.insertionSort themeOrder (scoredThemes entries)).take 3)
    have h2 : ((List.insertionSort themeOrder (scoredThemes entries)).take 3).length ≤ 3 := by
      simp [List.length_take]
    simp only [extractThemes, rankedThemes, List.length_map]
    omega
  · refine List.all_eq_true.mpr ?_
    intro t ht
    exact (List.mem_filter.mp ht).2
  · have hs := List.sorted_insertionSort themeOrder (scoredThemes entries)
    exact List.Pairwise.sublist
      ((List.filter_sublist _).trans (List.take_sublist 3 _)) hs
  · intro t ht
    have h1 := (List.mem_filter.mp ht).1
    have h2 := List.Sublist.mem h1 (List.take_sublist 3 _)
    exact (List.perm_insertionSort themeOrder (scoredThemes entries)).mem_iff.mp h2

/-- The "excellent consistency" insight (25 or more rated days). -/
def excellentConsistencyMsg : String :=
  "🎯 Excellent consistency! You\x27ve been tracking your mood regularly."

/-- The "good tracking" insight (15 to 24 rated days). -/
def goodTrackingMsg : String :=
  "👍 Good tracking habit! Try to maintain this consistency."

/-- The "track more regularly" insight (fewer than 15 rated days). -/
def trackMoreMsg : String :=
  "💡 Consider tracking more regularly to get better insights."

/-- The positive mood insight (average rating at least 4.0). -/
def positiveMoodMsg : String :=
  "😊 Your overall mood has been very positive this month!"

/-- The balanced mood insight (average rating at least 3.0). -/
def balancedMoodMsg : String :=
  "🙂 Your mood has been generally stable and balanced."

/-- The supportive mood insight (average rating below 3.0). -/
def supportiveMoodMsg : String :=
  "💙 It seems you\x27ve had some challenging days. Remember, it\x27s okay to have ups and downs."

/-- The improving-trend insight. -/
def improvingTrendMsg : String :=
  "📈 Great news! Your mood trend is improving over time."

/-- The declining-trend insight. -/
def decliningTrendMsg : String :=
  "📉 Your mood has been declining recently. Consider what might be affecting you."

/-- The theme summary insight, joining the theme labels with a comma. -/
def themeSummaryMsg (themes : List String) : String :=
  "🔍 Main focus areas: " ++ String.intercalate ", " themes ++ "."

/-- The insight generator `generateInsights` (`src/utils/aiAnalysis.ts`):
four sequential pushes, the first two unconditional three-way tiers, the
trend and theme pushes conditional. -/
def generateInsights (entries : Entries) (avgRating : ℚ) (trend : Trend)
    (themes : List String) : List String :=
  let ratedDays := entries.length
  (if 25 ≤ ratedDays then [excellentConsistencyMsg]
   else if 15 ≤ ratedDays then [goodTrackingMsg]
   else [trackMoreMsg]) ++
  (if 4 ≤ avgRating then [positiveMoodMsg]
   else if 3 ≤ avgRating then [balancedMoodMsg]
   else [supportiveMoodMsg]) ++
  (if trend = Trend.improving then [improvingTrendMsg]
   else if trend = Trend.declining then [decliningTrendMsg]
   else []) ++
  (if 0 < themes.length then [themeSummaryMsg themes] else [])

/-- C8: the insights list is exactly one consistency-tier message (25/15
thresholds) followed by one mood-tier message (4.0/3.0 thresholds), then a
trend message only for `improving` or `declining`, then a theme summary
only for non-empty themes; in particular it is never empty. -/
theorem generateInsights_spec (entries : Entries) (avgRating : ℚ) (trend : Trend)
    (themes : List String) :
    generateInsights entries avgRating trend themes =
      [if 25 ≤ entries.length then excellentConsistencyMsg
        else if 15 ≤ entries.length then goodTrackingMsg
        else trackMoreMsg,
       if 4 ≤ avgRating then positiveMoodMsg
        else if 3 ≤ avgRating then balancedMoodMsg
        else supportiveMoodMsg] ++
      (match trend with
        | Trend.improving => [improvingTrendMsg]
        | Trend.declining => [decliningTrendMsg]
        | Trend.stable => []) ++
      (if themes = [] then [] else [themeSummaryMsg themes]) ∧
    generateInsights entries avgRating trend themes ≠ [] := by
  constructor
  · cases trend <;> rcases themes with _ | ⟨t, ts⟩ <;> simp [generateInsights] <;>
      split_ifs <;> simp
  · unfold generateInsights
    split_ifs <;> simp

/-- First low-mood recommendation (average rating below 3.0). -/
def lowMoodRec1 : String :=
  "Consider talking to someone you trust about how you\x27re feeling."

/-- Second low-mood recommendation. -/
def lowMoodRec2 : String :=
  "Try incorporating small self-care activities into your daily routine."

/-- First declining-trend recommendation. -/
def decliningRec1 : String :=
  "Identify patterns: What days tend to be harder? What helps on better days?"

/-- Second declining-trend recommendation. -/
def decliningRec2 : String :=
  "Consider professional support if you\x27re consistently struggling."

/-- First stress-theme recommendation. -/
def stressRec1 : String :=
  "Practice stress management techniques like deep breathing or meditation."

/-- Second stress-theme recommendation. -/
def stressRec2 : String :=
  "Ensure you\x27re getting enough rest and taking regular breaks."

/-- The work-theme recommendation. -/
def workRec : String :=
  "Maintain work-life balance. Set boundaries for work hours."

/-- The social-theme recommendation. -/
def socialRec : String :=
  "Continue nurturing your social connections - they\x27re important for wellbeing."

/-- The health-theme recommendation. -/
def healthRec : String :=
  "Keep up the healthy habits! Physical health supports mental wellbeing."

/-- First default recommendation (no conditional rule fired). -/
def defaultRec1 : String :=
  "Continue reflecting daily to track your emotional patterns."

/-- Second default recommendation. -/
def defaultRec2 : String :=
  "Celebrate your wins, no matter how small."

/-- Third default recommendation. -/
def defaultRec3 : String :=
  "Be kind to yourself on difficult days."

/-- The recommendation generator `generateRecommendations`
(`src/utils/aiAnalysis.ts`): conditional pushes in fixed order, the
three-default fallback when nothing was pushed, then `slice(0, 4)`. -/
def generateRecommendations (avgRating : ℚ) (trend : Trend)
    (themes : List String) : List String :=
  let pushed :=
    (if avgRating < 3 then [lowMoodRec1, lowMoodRec2] else []) ++
    (if trend = Trend.declining then [decliningRec1, decliningRec2] else []) ++
    (if themes.contains "Stress" then [stressRec1, stressRec2] else []) ++
    (if themes.contains "Work" then [workRec] else []) ++
    (if themes.contains "Social" then [socialRec] else []) ++
    (if themes.contains "Health" then [healthRec] else [])
  let recommendations :=
    if pushed.length = 0 then [defaultRec1, defaultRec2, defaultRec3] else pushed
  recommendations.take 4

/-- C9: the recommendation list never exceeds 4 entries, and when no
conditional rule fires (average at least 3.0, trend not declining, none of
the four theme labels present) it is exactly the three generic defaults. -/
theorem generateRecommendations_spec (avgRating : ℚ) (trend : Trend)
    (themes : List String) :
    (generateRecommendations avgRating trend themes).length ≤ 4 ∧
    (3 ≤ avgRating → trend ≠ Trend.declining →
      themes.contains "Stress" = false → themes.contains "Work" = false →
      themes.contains "Social" = false → themes.contains "Health" = false →
      generateRecommendations avgRating trend themes =
        [defaultRec1, defaultRec2, defaultRec3]) := by
  constructor
  · unfold generateRecommendations
    simp only [List.length_take]
    omega
  · intro h1 h2 h3 h4 h5 h6
    unfold generateRecommendations
    rw [if_neg (not_lt.mpr h1), if_neg h2]
    have h3' : "Stress" ∉ themes := by simpa using h3
    have h4' : "Work" ∉ themes := by simpa using h4
    have h5' : "Social" ∉ themes := by simpa using h5
    have h6' : "Health" ∉ themes := by simpa using h6
    simp [h3', h4', h5', h6']

/-- C9 witness: the recommendation bound and the default fallback at the
concrete input (average 3, stable trend, no themes). -/
theorem generateRecommendations_spec_witness :
    (generateRecommendations 3 Trend.stable []).length ≤ 4 ∧
    generateRecommendations 3 Trend.stable [] =
      [defaultRec1, defaultRec2, defaultRec3] := by
  have h := generateRecommendations_spec 3 Trend.stable []
  exact ⟨h.1, h.2 (by decide) (by decide) (by decide) (by decide) (by decide) (by decide)⟩

/-- One step of the distribution `switch`: the strict-equality cases bump
exactly one bucket; any other rating value falls through (no `default`). -/
def bucketStep (d : RatingDistribution) (r : ℚ) : RatingDistribution :=
  if r = 5 then { d with excellent := d.excellent + 1 }
  else if r = 4 then { d with good := d.good + 1 }
  else if r = 3 then { d with neutral := d.neutral + 1 }
  else if r = 2 then { d with bad := d.bad + 1 }
  else if r = 1 then { d with terrible := d.terrible + 1 }
  else d

/-- Whether a rating value hits one of the five `switch` cases. -/
def inBucket (r : ℚ) : Bool :=
  decide (r = 5) || decide (r = 4) || decide (r = 3) || decide (r = 2) || decide (r = 1)

/-- The distribution accumulated over the window by the `forEach` loop. -/
def ratingDistributionOf (entries : Entries) : RatingDistribution :=
  entries.foldl (fun d p => bucketStep d p.2.rating) ⟨0, 0, 0, 0, 0⟩

/-- The total of the five distribution buckets. -/
def sumDist (d : RatingDistribution) : ℕ :=
  d.excellent + d.good + d.neutral + d.bad + d.terrible

/-- JS `Math.round`: round to the nearest integer, half toward positive
infinity, i.e. the floor of `x + 1/2`. -/
def jsRound (x : ℚ) : ℤ := ⌊x + 1/2⌋

/-- Modelled from the spec: rounding half away from zero, the semantics the
spec ascribes to the one-decimal rounding of `averageRating`.  Compared
against the code's `Math.round`-based rounding in the C4 theorem. -/
def roundHalfAwayFromZero (x : ℚ) : ℤ :=
  if 0 ≤ x then ⌊x + 1/2⌋ else ⌈x - 1/2⌉

/-- The short-circuit report `analyzeLastMonth` returns for an empty
window. -/
def emptyMonthlyAnalysis : MonthlyAnalysis where
  period := "Last 30 Days"
  totalDays := 30
  ratedDays := 0
  averageRating := 0
  ratingDistribution := ⟨0, 0, 0, 0, 0⟩
  emotionalTrend := .stable
  topThemes := []
  insights := ["No data available yet. Start tracking your daily reflections!"]
  recommendations := ["Begin by rating your day and writing a brief diary entry."]

/-- The orchestrator `analyzeLastMonth` (`src/utils/aiAnalysis.ts`),
parameterized by the store read outcome and the current instant. -/
def analyzeLastMonth (store : Except Unit Entries) (now : ℤ) : MonthlyAnalysis :=
  let entries := getEntriesFromLastNDays store now 30
  let ratedDays := entries.length
  if ratedDays = 0 then emptyMonthlyAnalysis
  else
    let distribution := ratingDistributionOf entries
    let totalRating := (entries.map (fun p => p.2.rating)).sum
    let averageRating := totalRating / ratedDays
    let trend := analyzeRatingTrend entries
    let themes := extractThemes entries
    { period := "Last 30 Days"
      totalDays := 30
      ratedDays := ratedDays
      averageRating := (jsRound (averageRating * 10) : ℚ) / 10
      ratingDistribution := distribution
      emotionalTrend := trend
      topThemes := themes
      insights := generateInsights entries averageRating trend themes
      recommendations := generateRecommendations averageRating trend themes }

/-- Each `switch` step adds exactly one to the bucket total when the rating
hits a case, and nothing otherwise. -/
theorem sumDist_bucketStep (d : RatingDistribution) (r : ℚ) :
    sumDist (bucketStep d r) = sumDist d + (if inBucket r then 1 else 0) := by
  unfold bucketStep inBucket sumDist
  split_ifs <;> simp_all <;> omega

/-- A rating that hits no `switch` case leaves the distribution unchanged. -/
theorem bucketStep_eq_of_not_inBucket (d : RatingDistribution) (r : ℚ)
    (h : inBucket r = false) : bucketStep d r = d := by
  unfold inBucket at h
  simp only [Bool.or_eq_false_iff, decide_eq_false_iff_not] at h
  unfold bucketStep
  simp [h.1.1.1.1, h.1.1.1.2, h.1.1.2, h.1.2, h.2]

/-- The bucket total accumulated by the fold counts exactly the entries
whose rating hits one of the five cases. -/
theorem sumDist_foldl (l : Entries) (d : RatingDistribution) :
    sumDist (l.foldl (fun d p => bucketStep d p.2.rating) d) =
      sumDist d + l.countP (fun p => inBucket p.2.rating) := by
  induction l generalizing d with
  | nil => simp
  | cons p l ih =>
    rw [List.foldl_cons, ih, sumDist_bucketStep, List.countP_cons]
    by_cases hb : inBucket p.2.rating <;> simp [hb] <;> omega

/-- Out-of-range ratings fall through the `switch`, so the fold computes
the same distribution as a fold over only the in-range entries. -/
theorem foldl_bucketStep_filter (l : Entries) (d : RatingDistribution) :
    l.foldl (fun d p => bucketStep d p.2.rating) d =
      (l.filter (fun p => inBucket p.2.rating)).foldl
        (fun d p => bucketStep d p.2.rating) d := by
  induction l generalizing d with
  | nil => rfl
  | cons p l ih =>
    by_cases hb : inBucket p.2.rating
    · simp only [List.filter_cons, hb, if_pos, List.foldl_cons]
      exact ih _
    · have hb' : inBucket p.2.rating = false := by simpa using hb
      simp only [List.filter_cons, hb', Bool.false_eq_true, if_false, List.foldl_cons,
        bucketStep_eq_of_not_inBucket _ _ hb']
      exact ih _

/-- A rating drawn from the domain {1, 2, 3, 4, 5} hits a `switch` case. -/
theorem inBucket_of_mem_domain (r : ℚ) (h : r ∈ ([1, 2, 3, 4, 5] : List ℚ)) :
    inBucket r = true := by
  unfold inBucket
  simp only [List.mem_cons, List.not_mem_nil, or_false] at h
  rcases h with h | h | h | h | h <;> simp [h]

/-- C2: when every stored rating lies in the domain {1, 2, 3, 4, 5}, the
five distribution counts (which are naturals, hence non-negative) sum to
`ratedDays`, in both the empty-window and the populated branch. -/
theorem analyzeLastMonth_distribution_sum (store : Except Unit Entries) (now : ℤ)
    (h : ∀ p ∈ getAllDayEntries store, p.2.rating ∈ ([1, 2, 3, 4, 5] : List ℚ)) :
    sumDist (analyzeLastMonth store now).ratingDistribution =
      (analyzeLastMonth store now).ratedDays := by
  by_cases hw : getEntriesFromLastNDays store now 30 = []
  · simp [analyzeLastMonth, hw, emptyMonthlyAnalysis, sumDist]
  · have hlen : (getEntriesFromLastNDays store now 30).length ≠ 0 := by
      simpa [List.length_eq_zero] using hw
    have hall : ∀ p ∈ getEntriesFromLastNDays store now 30, inBucket p.2.rating = true := by
      intro p hp
      have hp' : p ∈ getAllDayEntries store :=
        List.Sublist.mem hp (List.filter_sublist (getAllDayEntries store))
      exact inBucket_of_mem_domain _ (h p hp')
    simp only [analyzeLastMonth, hlen, if_false, ratingDistributionOf]
    rw [sumDist_foldl]
    rw [List.countP_eq_length.mpr hall]
    simp [sumDist]

/-- C2 witness: the bucket-sum invariant applied to a concrete store with
one in-range entry. -/
theorem analyzeLastMonth_distribution_sum_witness :
    (∀ p ∈ getAllDayEntries (Except.ok [(0, ⟨5, ""⟩)]),
      p.2.rating ∈ ([1, 2, 3, 4, 5] : List ℚ)) ∧
    sumDist (analyzeLastMonth (Except.ok [(0, ⟨5, ""⟩)]) 0).ratingDistribution =
      (analyzeLastMonth (Except.ok [(0, ⟨5, ""⟩)]) 0).ratedDays := by
  refine ⟨by decide, ?_⟩
  exact analyzeLastMonth_distribution_sum (Except.ok [(0, ⟨5, ""⟩)]) 0 (by decide)

/-- C6 (counterexample): on a failing store read, `analyzeLastMonth` still
returns the well-formed empty-state report, because `getAllDayEntries`
catches the error and returns `{}`.  This refutes the claim that a storage
failure is propagated and no well-formed report is produced. -/
theorem analyzeLastMonth_failure_returns_report :
    analyzeLastMonth (Except.error ()) 0 = emptyMonthlyAnalysis := by
  rfl

/-- C6 (amended): a storage read failure is swallowed inside
`getAllDayEntries`, which returns the empty record, so `analyzeLastMonth`
returns the well-formed empty-state report, indistinguishable from the
report produced by a successfully read empty store. -/
theorem analyzeLastMonth_swallows_storage_failure (now : ℤ) :
    getAllDayEntries (Except.error ()) = [] ∧
    analyzeLastMonth (Except.error ()) now = analyzeLastMonth (Except.ok []) now ∧
    analyzeLastMonth (Except.error ()) now = emptyMonthlyAnalysis := by
  exact ⟨rfl, rfl, rfl⟩

/-- C7: whenever the 30-day window is empty, `analyzeLastMonth` returns the
dedicated short-circuit report: zero rated days, zero average, all five
buckets zero, stable trend, no themes, exactly one insight and exactly one
recommendation. -/
theorem analyzeLastMonth_empty_window (store : Except Unit Entries) (now : ℤ)
    (h : getEntriesFromLastNDays store now 30 = []) :
    (analyzeLastMonth store now).ratedDays = 0 ∧
    (analyzeLastMonth store now).averageRating = 0 ∧
    (analyzeLastMonth store now).ratingDistribution = ⟨0, 0, 0, 0, 0⟩ ∧
    (analyzeLastMonth store now).emotionalTrend = Trend.stable ∧
    (analyzeLastMonth store now).topThemes = [] ∧
    (analyzeLastMonth store now).insights.length = 1 ∧
    (analyzeLastMonth store now).recommendations.length = 1 ∧
    analyzeLastMonth store now = emptyMonthlyAnalysis := by
  have he : analyzeLastMonth store now = emptyMonthlyAnalysis := by
    simp [analyzeLastMonth, h]
  simp [he, emptyMonthlyAnalysis]

/-- C7 witness: the empty-window short-circuit applied to a successfully
read empty store. -/
theorem analyzeLastMonth_empty_window_witness :
    getEntriesFromLastNDays (Except.ok []) 0 30 = [] ∧
    ((analyzeLastMonth (Except.ok []) 0).ratedDays = 0 ∧
     (analyzeLastMonth (Except.ok []) 0).averageRating = 0 ∧
     (analyzeLastMonth (Except.ok []) 0).ratingDistribution = ⟨0, 0, 0, 0, 0⟩ ∧
     (analyzeLastMonth (Except.ok []) 0).emotionalTrend = Trend.stable ∧
     (analyzeLastMonth (Except.ok []) 0).topThemes = [] ∧
     (analyzeLastMonth (Except.ok []) 0).insights.length = 1 ∧
     (analyzeLastMonth (Except.ok []) 0).recommendations.length = 1 ∧
     analyzeLastMonth (Except.ok []) 0 = emptyMonthlyAnalysis) := by
  refine ⟨rfl, ?_⟩
  exact analyzeLastMonth_empty_window (Except.ok []) 0 rfl

/-- A list sum is at most its length times an upper bound on its members. -/
theorem list_sum_le_length_mul (l : List ℚ) (b : ℚ) (h : ∀ x ∈ l, x ≤ b) :
    l.sum ≤ l.length * b := by
  induction l with
  | nil => simp
  | cons x l ih =>
    have hx := h x (by simp)
    have hl := ih (fun y hy => h y (by simp [hy]))
    simp only [List.sum_cons, List.length_cons]
    push_cast
    nlinarith

/-- A list sum is at least its length times a lower bound on its members. -/
theorem length_mul_le_list_sum (l : List ℚ) (b : ℚ) (h : ∀ x ∈ l, b ≤ x) :
    l.length * b ≤ l.sum := by
  induction l with
  | nil => simp
  | cons x l ih =>
    have hx := h x (by simp)
    have hl := ih (fun y hy => h y (by simp [hy]))
    simp only [List.sum_cons, List.length_cons]
    push_cast
    nlinarith

/-- The arithmetic mean of a non-empty list of ratings drawn from
{1, 2, 3, 4, 5} lies in the interval [1, 5]. -/
theorem mean_bounds (l : List ℚ) (hne : l ≠ [])
    (h : ∀ x ∈ l, x ∈ ([1, 2, 3, 4, 5] : List ℚ)) :
    1 ≤ l.sum / l.length ∧ l.sum / l.length ≤ 5 := by
  have hpos : (0:ℚ) < l.length := by
    have : l.length ≠ 0 := by simpa [List.length_eq_zero] using hne
    exact_mod_cast Nat.pos_of_ne_zero this
  have h1 : ∀ x ∈ l, (1:ℚ) ≤ x := by
    intro x hx
    have := h x hx
    simp only [List.mem_cons, List.not_mem_nil, or_false] at this
    rcases this with h | h | h | h | h <;> rw [h] <;> norm_num
  have h5 : ∀ x ∈ l, x ≤ (5:ℚ) := by
    intro x hx
    have := h x hx
    simp only [List.mem_cons, List.not_mem_nil, or_false] at this
    rcases this with h | h | h | h | h <;> rw [h] <;> norm_num
  have hlow := length_mul_le_list_sum l 1 h1
  have hhigh := list_sum_le_length_mul l 5 h5
  constructor
  · rw [le_div_iff hpos]
    linarith
  · rw [div_le_iff hpos]
    linarith

/-- C4: with all ratings in {1, 2, 3, 4, 5}, the reported `averageRating`
is the arithmetic mean of the window's ratings rounded to one decimal with
round-half-away-from-zero semantics (the code's `Math.round`, half toward
positive infinity, agrees because the scaled mean is non-negative), and it
lies in [1, 5]; for an empty window it is 0. -/
theorem analyzeLastMonth_average_spec (store : Except Unit Entries) (now : ℤ)
    (h : ∀ p ∈ getAllDayEntries store, p.2.rating ∈ ([1, 2, 3, 4, 5] : List ℚ)) :
    (getEntriesFromLastNDays store now 30 = [] →
      (analyzeLastMonth store now).averageRating = 0) ∧
    (getEntriesFromLastNDays store now 30 ≠ [] →
      (analyzeLastMonth store now).averageRating =
        (roundHalfAwayFromZero
          ((((getEntriesFromLastNDays store now 30).map (fun p => p.2.rating)).sum /
            ((getEntriesFromLastNDays store now 30).length : ℚ)) * 10) : ℚ) / 10 ∧
      1 ≤ (analyzeLastMonth store now).averageRating ∧
      (analyzeLastMonth store now).averageRating ≤ 5) := by
  constructor
  · intro hw
    simp [analyzeLastMonth, hw, emptyMonthlyAnalysis]
  · intro hw
    have hlen : (getEntriesFromLastNDays store now 30).length ≠ 0 := by
      simpa [List.length_eq_zero] using hw
    have hmem : ∀ x ∈ (getEntriesFromLastNDays store now 30).map (fun p => p.2.rating),
        x ∈ ([1, 2, 3, 4, 5] : List ℚ) := by
      intro x hx
      rcases List.mem_map.mp hx with ⟨p, hp, rfl⟩
      have hp' : p ∈ getAllDayEntries store :=
        List.Sublist.mem hp (List.filter_sublist (getAllDayEntries store))
      exact h p hp'
    have hmne : (getEntriesFromLastNDays store now 30).map (fun p => p.2.rating) ≠ [] := by
      simp [List.map_eq_nil, hw]
    have hmean := mean_bounds _ hmne hmem
    rw [List.length_map] at hmean
    set m := (((getEntriesFromLastNDays store now 30).map (fun p => p.2.rating)).sum /
      ((getEntriesFromLastNDays store now 30).length : ℚ)) with hm
    have havg : (analyzeLastMonth store now).averageRating = (jsRound (m * 10) : ℚ) / 10 := by
      simp only [analyzeLastMonth, hlen, if_false]
    have hr10 : (10:ℤ) ≤ jsRound (m * 10) := by
      rw [jsRound, Int.le_floor]
      push_cast
      nlinarith [hmean.1]
    have hr50 : jsRound (m * 10) ≤ 50 := by
      have : jsRound (m * 10) < 51 := by
        rw [jsRound, Int.floor_lt]
        push_cast
        nlinarith [hmean.2]
      omega
    refine ⟨?_, ?_, ?_⟩
    · rw [havg, roundHalfAwayFromZero, if_pos (by nlinarith [hmean.1])]
      rfl
    · rw [havg]
      have : (10:ℚ) ≤ (jsRound (m * 10) : ℚ) := by exact_mod_cast hr10
      linarith
    · rw [havg]
      have : (jsRound (m * 10) : ℚ) ≤ 50 := by exact_mod_cast hr50
      linarith

/-- C4 witness: the rounded-mean characterization applied to a concrete
two-entry store (ratings 4 and 5, mean 4.5). -/
theorem analyzeLastMonth_average_spec_witness :
    (∀ p ∈ getAllDayEntries (Except.ok [(0, ⟨4, ""⟩), (1, ⟨5, ""⟩)]),
      p.2.rating ∈ ([1, 2, 3, 4, 5] : List ℚ)) ∧
    (getEntriesFromLastNDays (Except.ok [(0, ⟨4, ""⟩), (1, ⟨5, ""⟩)]) 0 30 ≠ [] →
      (analyzeLastMonth (Except.ok [(0, ⟨4, ""⟩), (1, ⟨5, ""⟩)]) 0).averageRating =
        (roundHalfAwayFromZero
          ((((getEntriesFromLastNDays (Except.ok [(0, ⟨4, ""⟩), (1, ⟨5, ""⟩)]) 0 30).map
              (fun p => p.2.rating)).sum /
            ((getEntriesFromLastNDays (Except.ok [(0, ⟨4, ""⟩), (1, ⟨5, ""⟩)]) 0 30).length : ℚ)) *
            10) : ℚ) / 10 ∧
      1 ≤ (analyzeLastMonth (Except.ok [(0, ⟨4, ""⟩), (1, ⟨5, ""⟩)]) 0).averageRating ∧
      (analyzeLastMonth (Except.ok [(0, ⟨4, ""⟩), (1, ⟨5, ""⟩)]) 0).averageRating ≤ 5) := by
  refine ⟨by decide, ?_⟩
  exact (analyzeLastMonth_average_spec (Except.ok [(0, ⟨4, ""⟩), (1, ⟨5, ""⟩)]) 0 (by decide)).2

/-- C10: an in-window entry with a rating outside {1, 2, 3, 4, 5} is
counted in `ratedDays`, its rating enters the `averageRating` mean, but it
increments none of the five distribution buckets: the distribution equals
the one computed from only the in-range entries, and the bucket total falls
strictly short of `ratedDays`. -/
theorem analyzeLastMonth_out_of_range_spec (store : Except Unit Entries) (now : ℤ)
    (p : ℤ × DayEntry) (hp : p ∈ getEntriesFromLastNDays store now 30)
    (hr : p.2.rating ∉ ([1, 2, 3, 4, 5] : List ℚ)) :
    (analyzeLastMonth store now).ratedDays =
      (getEntriesFromLastNDays store now 30).length ∧
    (analyzeLastMonth store now).averageRating =
      (jsRound ((((getEntriesFromLastNDays store now 30).map (fun q => q.2.rating)).sum /
        ((getEntriesFromLastNDays store now 30).length : ℚ)) * 10) : ℚ) / 10 ∧
    (analyzeLastMonth store now).ratingDistribution =
      ratingDistributionOf
        ((getEntriesFromLastNDays store now 30).filter (fun q => inBucket q.2.rating)) ∧
    sumDist (analyzeLastMonth store now).ratingDistribution <
      (analyzeLastMonth store now).ratedDays := by
  have hw : getEntriesFromLastNDays store now 30 ≠ [] := List.ne_nil_of_mem hp
  have hlen : (getEntriesFromLastNDays store now 30).length ≠ 0 := by
    simpa [List.length_eq_zero] using hw
  have hb : inBucket p.2.rating = false := by
    unfold inBucket
    simp only [List.mem_cons, List.not_mem_nil, or_false, not_or] at hr
    simp only [Bool.or_eq_false_iff, decide_eq_false_iff_not]
    tauto
  refine ⟨?_, ?_, ?_, ?_⟩
  · simp only [analyzeLastMonth, hlen, if_false]
  · simp only [analyzeLastMonth, hlen, if_false]
  · simp only [analyzeLastMonth, hlen, if_false, ratingDistributionOf]
    exact foldl_bucketStep_filter _ _
  · simp only [analyzeLastMonth, hlen, if_false, ratingDistributionOf]
    rw [sumDist_foldl]
    have hcle := List.countP_le_length (fun q => inBucket q.2.rating)
      (l := getEntriesFromLastNDays store now 30)
    have hcne : (getEntriesFromLastNDays store now 30).countP
        (fun q => inBucket q.2.rating) ≠ (getEntriesFromLastNDays store now 30).length := by
      intro he
      have := List.countP_eq_length.mp he p hp
      rw [hb] at this
      exact Bool.false_ne_true this
    simp only [sumDist]
    omega

/-- C10 witness: a store holding a single in-window entry with rating 7:
it is counted in `ratedDays` and the mean, but no bucket is bumped. -/
theorem analyzeLastMonth_out_of_range_spec_witness :
    (((0:ℤ), (⟨7, ""⟩ : DayEntry)) ∈ getEntriesFromLastNDays (Except.ok [(0, ⟨7, ""⟩)]) 0 30 ∧
     ((⟨7, ""⟩ : DayEntry)).rating ∉ ([1, 2, 3, 4, 5] : List ℚ)) ∧
    ((analyzeLastMonth (Except.ok [(0, ⟨7, ""⟩)]) 0).ratedDays =
      (getEntriesFromLastNDays (Except.ok [(0, ⟨7, ""⟩)]) 0 30).length ∧
     (analyzeLastMonth (Except.ok [(0, ⟨7, ""⟩)]) 0).averageRating =
      (jsRound ((((getEntriesFromLastNDays (Except.ok [(0, ⟨7, ""⟩)]) 0 30).map
          (fun q => q.2.rating)).sum /
        ((getEntriesFromLastNDays (Except.ok [(0, ⟨7, ""⟩)]) 0 30).length : ℚ)) * 10) : ℚ) / 10 ∧
     (analyzeLastMonth (Except.ok [(0, ⟨7, ""⟩)]) 0).ratingDistribution =
      ratingDistributionOf
        ((getEntriesFromLastNDays (Except.ok [(0, ⟨7, ""⟩)]) 0 30).filter
          (fun q => inBucket q.2.rating)) ∧
     sumDist (analyzeLastMonth (Except.ok [(0, ⟨7, ""⟩)]) 0).ratingDistribution <
      (analyzeLastMonth (Except.ok [(0, ⟨7, ""⟩)]) 0).ratedDays) := by
  refine ⟨⟨by decide, by decide⟩, ?_⟩
  exact analyzeLastMonth_out_of_range_spec (Except.ok [(0, ⟨7, ""⟩)]) 0
    (0, ⟨7, ""⟩) (by decide) (by decide)
